import Mathlib

/-!
Verification of the Fallom TypeScript SDK core against its specification.

The definitions below are shallow embeddings of the SDK's source:
machine 32-bit words become `Nat` with explicit `% 2^32`, JavaScript
values relevant to the sanitizers become the inductive `JsValue`,
module-level mutable state becomes explicit state records, and the
fallible operations return an explicit error component.
-/

set_option maxRecDepth 100000

namespace Fallom

/-! ### MD5 (as computed by Node's createHash("md5"), used by hashSessionId) -/

/-- 2^32, the word modulus of MD5 arithmetic. -/
def w32 : Nat := 4294967296

/-- 32-bit left rotation of a word already reduced below 2^32. -/
def rotl32 (x s : Nat) : Nat :=
  (((x <<< s) % w32) ||| (x >>> (32 - s)))

/-- 32-bit complement. -/
def compl32 (x : Nat) : Nat := x ^^^ 4294967295

/-- The 64 MD5 sine-derived constants. -/
def md5K : List Nat :=
  [3614090360, 3905402710, 606105819, 3250441966, 4118548399, 1200080426,
   2821735955, 4249261313, 1770035416, 2336552879, 4294925233, 2304563134,
   1804603682, 4254626195, 2792965006, 1236535329, 4129170786, 3225465664,
   643717713, 3921069994, 3593408605, 38016083, 3634488961, 3889429448,
   568446438, 3275163606, 4107603335, 1163531501, 2850285829, 4243563512,
   1735328473, 2368359562, 4294588738, 2272392833, 1839030562, 4259657740,
   2763975236, 1272893353, 4139469664, 3200236656, 681279174, 3936430074,
   3572445317, 76029189, 3654602809, 3873151461, 530742520, 3299628645,
   4096336452, 1126891415, 2878612391, 4237533241, 1700485571, 2399980690,
   4293915773, 2240044497, 1873313359, 4264355552, 2734768916, 1309151649,
   4149444226, 3174756917, 718787259, 3951481745]

/-- The 64 MD5 per-round shift amounts. -/
def md5S : List Nat :=
  [7, 12, 17, 22, 7, 12, 17, 22, 7, 12, 17, 22, 7, 12, 17, 22,
   5, 9, 14, 20, 5, 9, 14, 20, 5, 9, 14, 20, 5, 9, 14, 20,
   4, 11, 16, 23, 4, 11, 16, 23, 4, 11, 16, 23, 4, 11, 16, 23,
   6, 10, 15, 21, 6, 10, 15, 21, 6, 10, 15, 21, 6, 10, 15, 21]

/-- The MD5 round function for step i. -/
def md5F (i b c d : Nat) : Nat :=
  if i < 16 then (b &&& c) ||| (compl32 b &&& d)
  else if i < 32 then (d &&& b) ||| (compl32 d &&& c)
  else if i < 48 then b ^^^ c ^^^ d
  else c ^^^ (b ||| compl32 d)

/-- The message-word index used at step i. -/
def md5G (i : Nat) : Nat :=
  if i < 16 then i
  else if i < 32 then (5 * i + 1) % 16
  else if i < 48 then (3 * i + 5) % 16
  else (7 * i) % 16

/-- The running state of an MD5 computation. -/
structure MD5State where
  a : Nat
  b : Nat
  c : Nat
  d : Nat
deriving Repr, DecidableEq

/-- The i-th little-endian 32-bit word of a 64-byte block. -/
def wordAt (block : List Nat) (i : Nat) : Nat :=
  block.getD (4 * i) 0 + 256 * block.getD (4 * i + 1) 0 +
    65536 * block.getD (4 * i + 2) 0 + 16777216 * block.getD (4 * i + 3) 0

/-- One of the 64 steps of an MD5 block computation. -/
def md5Step (block : List Nat) (st : MD5State) (i : Nat) : MD5State :=
  let f := (md5F i st.b st.c st.d + st.a + md5K.getD i 0 +
    wordAt block (md5G i)) % w32
  ⟨st.d, (st.b + rotl32 f (md5S.getD i 0)) % w32, st.b, st.c⟩

/-- Process one 64-byte block. -/
def md5Block (st : MD5State) (block : List Nat) : MD5State :=
  let r := (List.range 64).foldl (md5Step block) st
  ⟨(st.a + r.a) % w32, (st.b + r.b) % w32, (st.c + r.c) % w32,
   (st.d + r.d) % w32⟩

/-- The 8 little-endian bytes of a 64-bit value. -/
def le8 (n : Nat) : List Nat :=
  (List.range 8).map (fun i => (n >>> (8 * i)) % 256)

/-- The 4 little-endian bytes of a 32-bit value. -/
def le4 (n : Nat) : List Nat :=
  (List.range 4).map (fun i => (n >>> (8 * i)) % 256)

/-- MD5 padding: 0x80, zeros to 56 mod 64, then the bit length little-endian. -/
def md5Pad (msg : List Nat) : List Nat :=
  msg ++ [128] ++ List.replicate ((119 - msg.length % 64) % 64) 0 ++
    le8 ((msg.length * 8) % (w32 * w32))

/-- The 16-byte MD5 digest of a byte list. -/
def md5Digest (msg : List Nat) : List Nat :=
  let p := md5Pad msg
  let st := (List.range (p.length / 64)).foldl
    (fun st bi => md5Block st ((p.drop (64 * bi)).take 64))
    ⟨1732584193, 4023233417, 2562383102, 271733878⟩
  le4 st.a ++ le4 st.b ++ le4 st.c ++ le4 st.d

/-- UTF-8 encoding of one character, as Node's Buffer.from(s, "utf8"). -/
def charUtf8 (c : Char) : List Nat :=
  let n := c.toNat
  if n < 128 then [n]
  else if n < 2048 then [192 + n / 64, 128 + n % 64]
  else if n < 65536 then
    [224 + n / 4096, 128 + (n / 64) % 64, 128 + n % 64]
  else
    [240 + n / 262144, 128 + (n / 4096) % 64, 128 + (n / 64) % 64,
     128 + n % 64]

/-- UTF-8 bytes of a string. -/
def utf8Bytes (s : String) : List Nat :=
  (s.toList.map charUtf8).flatten

/-- Big-endian 32-bit read of the first four bytes, as Buffer.readUInt32BE(0). -/
def readUInt32BE (bs : List Nat) : Nat :=
  bs.getD 0 0 * 16777216 + bs.getD 1 0 * 65536 + bs.getD 2 0 * 256 +
    bs.getD 3 0

/-- hashSessionId from the source: MD5 digest of the session id, first four
bytes read big-endian, reduced modulo 1,000,000. -/
def hashSessionId (sessionId : String) : Nat :=
  readUInt32BE (md5Digest (utf8Bytes sessionId)) % 1000000

/-! ### AssignmentEngine: deterministic sticky assignment -/

/-- One weighted variant of a configuration snapshot. -/
structure Variant where
  weight : Nat
  payload : String
deriving Repr, DecidableEq

/-- The fixed bucket resolution R of the assignment algorithm. -/
def bucketResolution : Nat := 1000000

/-- Modelled from the spec: the variant-selection walk of the
AssignmentEngine.  The engine's own module (models.ts) is not among the
repository sources; only the session-id hashing step appears there, in the
extracted test helper hashSessionId.  Spec, section 4.2: walk the snapshot's
variants in order, accumulating weight, and select the variant whose
cumulative-weight interval, normalized against the total weight and scaled
to the resolution R, contains the bucket.  Returns the selected variant's
index and payload, or none on an empty snapshot (which the resilient entry
point resolves to the fallback). -/
def selectWalk (bucket total : Nat) :
    List Variant → Nat → Nat → Option (Nat × String)
  | [], _, _ => none
  | v :: rest, index, cum =>
    if bucket < (cum + v.weight) * bucketResolution / total then
      some (index, v.payload)
    else
      selectWalk bucket total rest (index + 1) (cum + v.weight)

/-- Modelled from the spec: selection of the variant whose cumulative-weight
interval contains the bucket, entered at index 0 with zero accumulated
weight. -/
def selectVariant (bucket : Nat) (snapshot : List Variant) :
    Option (Nat × String) :=
  selectWalk bucket ((snapshot.map Variant.weight).sum) snapshot 0 0

/-- Modelled from the spec: the assignment function, mapping a subject id
and a configuration snapshot to a variant index and payload through the
session-id hash. -/
def assign (sessionId : String) (snapshot : List Variant) :
    Option (Nat × String) :=
  selectVariant (hashSessionId sessionId) snapshot

/-! ### ContextStore: the session context of src/init.ts -/

/-- The ambient session context of init.ts. -/
structure SessionContext where
  configKey : String
  sessionId : String
deriving Repr, DecidableEq

/-- The module-level mutable state of the trace module in init.ts: the
credentials and flags set by init, and the fallbackSession slot used when no
AsyncLocalStorage scope is active. -/
structure TraceModuleState where
  apiKey : Option String
  baseUrl : String
  initialized : Bool
  captureContent : Bool
  fallbackSession : Option SessionContext
deriving Repr, DecidableEq

/-- setSession from init.ts: when an AsyncLocalStorage store is active its
fields are overwritten with the new pair, and the module-level
fallbackSession slot is always overwritten as well.  The first component of
the result is the store after the call (the store object is mutated in
place in the source; here the updated value is returned), the second the
module state after the call. -/
def setSession (configKey sessionId : String)
    (store : Option SessionContext) (st : TraceModuleState) :
    Option SessionContext × TraceModuleState :=
  (store.map (fun _ => ⟨configKey, sessionId⟩),
   { st with fallbackSession := some ⟨configKey, sessionId⟩ })

/-- getSession from init.ts: the AsyncLocalStorage store if one is active,
else the fallbackSession slot, else absent. -/
def getSession (store : Option SessionContext) (st : TraceModuleState) :
    Option SessionContext :=
  match store with
  | some c => some c
  | none => st.fallbackSession

/-- clearSession from init.ts: resets only the module-level fallback slot;
an AsyncLocalStorage scope cannot be cleared from outside. -/
def clearSession (st : TraceModuleState) : TraceModuleState :=
  { st with fallbackSession := none }

/-- An ambient computation: a function of the active AsyncLocalStorage
store (read-only for the dynamic extent of a scope) and the module state.
AsyncLocalStorage.run binds the store for exactly the call of its body, so
the body receives the new binding and the caller's binding is untouched
when the call returns. -/
def Comp (α : Type) : Type :=
  Option SessionContext → TraceModuleState → α × TraceModuleState

/-- runWithSession from init.ts: executes the body with a fresh store
holding the given pair bound as the ambient context. -/
def runWithSession {α : Type} (configKey sessionId : String)
    (fn : Comp α) : Comp α :=
  fun _store st => fn (some ⟨configKey, sessionId⟩) st

/-- getSession as an ambient computation. -/
def getSessionC : Comp (Option SessionContext) :=
  fun store st => (getSession store st, st)

/-- The nesting probe of the spec's section 8: enter a scope with ctxA,
inside it enter a scope with ctxB and read, then back in the outer body
read again; the pair of reads is returned. -/
def nestedProbe (ckA sidA ckB sidB : String) :
    Comp (Option SessionContext × Option SessionContext) :=
  runWithSession ckA sidA (fun store st =>
    let inner := runWithSession ckB sidB getSessionC store st
    let outer := getSessionC store inner.2
    ((inner.1, outer.1), outer.2))

/-! ### Scope isolation under interleaving (C2)

Modelled from the spec: AsyncLocalStorage propagation is provided by the
Node runtime (async_hooks), outside the repository sources.  Spec, section
5: context is carried through continuation state tied to the specific call
chain, so every checkpoint of a scope's descendant asynchronous chain runs
with that scope's store active.  Given that, an interleaved execution of
two scopes is any sequence of checkpoint events of either scope, with
arbitrary mutations of the unscoped fallback slot in between; each
checkpoint observes getSession of its own scope's store and the fallback
slot of that moment. -/

/-- One event of an interleaved execution: a get() checkpoint inside scope
A or scope B, or an unscoped setSession/clearSession elsewhere mutating the
fallback slot. -/
inductive Event where
  | checkpoint (inB : Bool)
  | outsideSet (configKey sessionId : String)
  | outsideClear
deriving Repr, DecidableEq

/-- The store active at a checkpoint of each scope: scope A's chain runs
with ctxA bound, scope B's with ctxB. -/
def scopeStore (ctxA ctxB : SessionContext) (inB : Bool) :
    Option SessionContext :=
  if inB then some ctxB else some ctxA

/-- Replay an interleaving: each checkpoint records which scope it belongs
to and what getSession observed there; unscoped events mutate the module
state through setSession/clearSession with no store active. -/
def runTrace (ctxA ctxB : SessionContext) :
    List Event → TraceModuleState → List (Bool × Option SessionContext)
  | [], _ => []
  | Event.checkpoint inB :: es, st =>
    (inB, getSession (scopeStore ctxA ctxB inB) st) :: runTrace ctxA ctxB es st
  | Event.outsideSet ck sid :: es, st =>
    runTrace ctxA ctxB es (setSession ck sid none st).2
  | Event.outsideClear :: es, st =>
    runTrace ctxA ctxB es (clearSession st)

/-! ### Redaction: the two JSON.stringify replacers of shared-utils -/

/-- A JavaScript value as seen by the replacers.  String lengths are
counted in characters, which agrees with JavaScript's length on strings
without surrogate pairs.  The binary constructor stands for a value that is
a Uint8Array or carries type "Buffer", the shapes the replacers' binary
check recognizes. -/
inductive JsValue where
  | str (s : String)
  | num (n : Int)
  | jsBool (b : Bool)
  | null
  | arr (items : List JsValue)
  | obj (fields : List (String × JsValue))
  | binary (len : Nat)
deriving Repr

/-- The startsWith check of JavaScript strings: the prefix's characters
head the string's characters. -/
def jsStartsWith (s p : String) : Bool :=
  p.data.isPrefixOf s.data

/-- The rules sanitizeForLogging applies to the value once the key check
has passed: data-image strings, then the 10,000-character threshold, then
binary payloads. -/
def sanitizeValueFull (value : JsValue) : JsValue :=
  match value with
  | .str s =>
    if jsStartsWith s "data:image/" then .str "[base64 image omitted]"
    else if s.length > 10000 then
      .str ("[large string omitted: " ++ toString s.length ++ " chars]")
    else .str s
  | .binary _ => .str "[binary data omitted]"
  | v => v

/-- sanitizeForLogging from shared-utils: the full-content profile.  The
keys rawResponse and rawCall are replaced outright; otherwise the value
rules apply. -/
def sanitizeForLogging (key : String) (value : JsValue) : JsValue :=
  if key = "rawResponse" || key = "rawCall" then .str "[omitted]"
  else sanitizeValueFull value

/-- The denylist of content-bearing field names of sanitizeMetadataOnly. -/
def contentKeys : List String :=
  ["text", "content", "message", "messages", "object", "prompt", "system",
   "input", "output", "response", "toolCalls", "toolResults", "steps",
   "reasoning", "rawResponse", "rawCall", "body", "candidates", "parts"]

/-- The rules sanitizeMetadataOnly applies once the denylist check has not
replaced the value: data-image strings, then the 1,000-character threshold,
then binary payloads. -/
def sanitizeValueMeta (value : JsValue) : JsValue :=
  match value with
  | .str s =>
    if jsStartsWith s "data:image/" then .str "[base64 image omitted]"
    else if s.length > 1000 then
      .str ("[large string omitted: " ++ toString s.length ++ " chars]")
    else .str s
  | .binary _ => .str "[binary data omitted]"
  | v => v

/-- sanitizeMetadataOnly from shared-utils: the metadata-only profile.  A
denylisted key's value is replaced by a type-aware placeholder when it is a
string, an array, or a non-null object (a binary payload is an object and
is caught here too); any other value, and every value under a key off the
denylist, falls through to the general rules. -/
def sanitizeMetadataOnly (key : String) (value : JsValue) : JsValue :=
  if contentKeys.contains key then
    match value with
    | .str s => .str ("[content omitted: " ++ toString s.length ++ " chars]")
    | .arr items =>
      .str ("[content omitted: " ++ toString items.length ++ " items]")
    | .obj _ => .str "[content omitted]"
    | .binary _ => .str "[content omitted]"
    | v => sanitizeValueMeta v
  else sanitizeValueMeta value

/-! ### Span attributes built on call completion (C7) -/

/-- An attribute entry set only when its value is present. -/
def optEntry (key : String) (value : Option String) :
    List (String × String) :=
  match value with
  | some v => [(key, v)]
  | none => []

/-- The attributes of the span the generateText wrapper sends on success:
the base entries, the raw request and response only when content capture is
on, the usage entry whenever the call reported usage, and the provider
metadata entry when present.  The serialized payloads are parameters: the
wrapper stores JSON.stringify output, whose exact text is irrelevant here. -/
def generateTextAttributes (captureContent : Bool) (reqJson respJson : String)
    (usageJson providerMetaJson : Option String) :
    List (String × String) :=
  [("fallom.sdk_version", "2"), ("fallom.method", "generateText")] ++
  (if captureContent then
    [("fallom.raw.request", reqJson), ("fallom.raw.response", respJson)]
   else []) ++
  optEntry "fallom.raw.usage" usageJson ++
  optEntry "fallom.raw.providerMetadata" providerMetaJson

/-- providerInfoToAttributes from the AI SDK wrapper utils: one entry per
present field of the extracted provider info. -/
def providerInfoToAttributes
    (provider providerId baseUrl aiSdkVersion rawJson : Option String) :
    List (String × String) :=
  optEntry "fallom.provider" provider ++
  optEntry "fallom.provider_id" providerId ++
  optEntry "fallom.base_url" baseUrl ++
  optEntry "fallom.ai_sdk_version" aiSdkVersion ++
  optEntry "fallom.provider_raw" rawJson

/-- The attributes of the span the streamObject wrapper sends on success:
base entries and provider info, the raw request only when content capture
is on, the raw response only when capture is on and the call yielded a
response object or finish reason, usage and provider metadata when present,
and the sanitized result metadata when its serialization succeeded. -/
def streamObjectAttributes (captureContent : Bool)
    (provider providerId baseUrl aiSdkVersion rawJson : Option String)
    (reqJson : String) (respJson usageJson providerMetaJson : Option String)
    (metadataJson : Option String) : List (String × String) :=
  [("fallom.sdk_version", "2"), ("fallom.method", "streamObject"),
   ("fallom.is_streaming", "true")] ++
  providerInfoToAttributes provider providerId baseUrl aiSdkVersion rawJson ++
  (if captureContent then
    ("fallom.raw.request", reqJson) ::
      optEntry "fallom.raw.response" respJson
   else []) ++
  optEntry "fallom.raw.usage" usageJson ++
  optEntry "fallom.raw.providerMetadata" providerMetaJson ++
  optEntry "fallom.raw.metadata" metadataJson

/-- The attributes of the span the generateText wrapper sends from its
catch block when the wrapped call throws: the base entries and the raw
request (prompt, messages, system, model serialized), added with no
content-capture guard at all. -/
def generateTextErrorAttributes (reqJson : String) :
    List (String × String) :=
  [("fallom.sdk_version", "2"), ("fallom.method", "generateText"),
   ("fallom.raw.request", reqJson)]

/-- The attributes of the span the streamObject wrapper sends from its
catch handler when capturing the stream's promises fails: the base entries
only, no raw request or response. -/
def streamObjectErrorAttributes : List (String × String) :=
  [("fallom.sdk_version", "2"), ("fallom.method", "streamObject"),
   ("fallom.is_streaming", "true")]

/-- Membership in the keys of an optional attribute entry. -/
theorem mem_optEntry_keys {name key : String} {value : Option String} :
    name ∈ (optEntry key value).map Prod.fst ↔
      name = key ∧ value.isSome = true := by
  cases value <;> simp [optEntry]

/-- Membership of a full entry in an optional attribute entry. -/
theorem pair_mem_optEntry {name x key : String} {value : Option String} :
    (name, x) ∈ optEntry key value ↔ name = key ∧ value = some x := by
  cases value <;> simp [optEntry, eq_comm]

/-! ### Prompt template rendering: replaceVariables (C9) -/

/-- A JavaScript value passed in a template variable map, with its String()
conversion. -/
inductive TplValue where
  | vstr (s : String)
  | vint (n : Int)
  | vbool (b : Bool)
deriving Repr, DecidableEq

/-- The String() conversion applied to a template variable's value. -/
def tplToString : TplValue → String
  | .vstr s => s
  | .vint n => toString n
  | .vbool b => if b then "true" else "false"

/-- A word character of the regular expression class backslash-w. -/
def isWordChar (c : Char) : Bool :=
  c.isAlpha || c.isDigit || c = '_'

/-- A whitespace character of the class backslash-s (the ASCII part). -/
def isSpaceChar (c : Char) : Bool :=
  c = ' ' || c = '\t' || c = '\n' || c = '\r'

/-- Match the placeholder pattern at the current position: two opening
braces, optional spaces, one or more word characters, optional spaces, two
closing braces.  On success returns the full matched text, the trimmed
variable name, and the input after the match. -/
def matchPlaceholder (cs : List Char) :
    Option (List Char × String × List Char) :=
  match cs with
  | '{' :: '{' :: rest =>
    let sp1 := rest.takeWhile isSpaceChar
    let r1 := rest.dropWhile isSpaceChar
    let w := r1.takeWhile isWordChar
    let r2 := r1.dropWhile isWordChar
    if w.isEmpty then none
    else
      let sp2 := r2.takeWhile isSpaceChar
      match r2.dropWhile isSpaceChar with
      | '}' :: '}' :: r4 =>
        some ('{' :: '{' :: (sp1 ++ w ++ sp2) ++ ['}', '}'],
          String.mk w, r4)
      | _ => none
  | _ => none

/-- A successful placeholder match consumes at least the two opening
braces, so the remainder is strictly shorter than the input. -/
theorem matchPlaceholder_shrinks {cs m : List Char} {n : String}
    {r : List Char} (h : matchPlaceholder cs = some (m, n, r)) :
    r.length < cs.length := by
  unfold matchPlaceholder at h
  split at h
  case _ rest =>
    simp only at h
    split at h
    · exact absurd h (by simp)
    · split at h
      case _ heq =>
        simp only [Option.some.injEq, Prod.mk.injEq] at h
        obtain ⟨-, -, hr⟩ := h
        subst hr
        have h1 : (rest.dropWhile isSpaceChar).length ≤ rest.length :=
          (List.dropWhile_sublist _).length_le
        have h2 :
            ((rest.dropWhile isSpaceChar).dropWhile isWordChar).length ≤
              (rest.dropWhile isSpaceChar).length :=
          (List.dropWhile_sublist _).length_le
        have h3 := congrArg List.length heq
        simp at h3
        have h4 :
            (((rest.dropWhile isSpaceChar).dropWhile
                isWordChar).dropWhile isSpaceChar).length ≤
              ((rest.dropWhile isSpaceChar).dropWhile isWordChar).length :=
          (List.dropWhile_sublist _).length_le
        simp only [List.length_cons]
        omega
      case _ => exact absurd h (by simp)
  case _ => exact absurd h (by simp)

/-- The replacement loop of the global regex replace: at each position try
the placeholder pattern; on a match, substitute the variable's String()
conversion when the trimmed name is a key of the map and keep the matched
text otherwise, then continue after the match; with no match, keep one
character and continue. -/
def replaceChars (vars : List (String × TplValue)) :
    List Char → List Char
  | [] => []
  | c :: cs =>
    match h : matchPlaceholder (c :: cs) with
    | some (m, n, r) =>
      (match (vars.find? (fun p => p.1 = n)) with
       | some p => (tplToString p.2).toList
       | none => m) ++ replaceChars vars r
    | none => c :: replaceChars vars cs
termination_by cs => cs.length
decreasing_by
  · exact matchPlaceholder_shrinks h
  · simp

/-- replaceVariables from the prompts module: with no variable map the
template is returned unchanged; otherwise every placeholder pattern is
replaced left to right. -/
def replaceVariables (template : String)
    (vars : Option (List (String × TplValue))) : String :=
  match vars with
  | none => template
  | some m => String.mk (replaceChars m template.toList)

/-- A word character is never a whitespace character. -/
theorem word_not_space {c : Char} (h : isWordChar c = true) :
    isSpaceChar c = false := by
  by_contra hc
  rw [Bool.not_eq_false] at hc
  unfold isSpaceChar at hc
  simp only [Bool.or_eq_true, decide_eq_true_eq] at hc
  rcases hc with ((h1 | h1) | h1) | h1 <;> subst h1 <;>
    exact absurd h (by decide)

/-- A whitespace character is never a word character. -/
theorem space_not_word {c : Char} (h : isSpaceChar c = true) :
    isWordChar c = false := by
  by_contra hc
  rw [Bool.not_eq_false] at hc
  exact absurd h (by rw [word_not_space hc]; exact Bool.false_ne_true)

/-- takeWhile passes over a first block that satisfies the predicate. -/
theorem takeWhile_append_all (p : Char → Bool) :
    ∀ l1 l2 : List Char, (∀ c ∈ l1, p c = true) →
      (l1 ++ l2).takeWhile p = l1 ++ l2.takeWhile p
  | [], _, _ => by simp
  | c :: cs, l2, h => by
    have hc : p c = true := h c (by simp)
    rw [List.cons_append, List.takeWhile_cons, if_pos hc, List.cons_append,
      takeWhile_append_all p cs l2 (fun d hd => h d (by simp [hd]))]

/-- dropWhile skips a first block that satisfies the predicate. -/
theorem dropWhile_append_all (p : Char → Bool) :
    ∀ l1 l2 : List Char, (∀ c ∈ l1, p c = true) →
      (l1 ++ l2).dropWhile p = l2.dropWhile p
  | [], _, _ => by simp
  | c :: cs, l2, h => by
    have hc : p c = true := h c (by simp)
    rw [List.cons_append, List.dropWhile_cons, if_pos hc]
    exact dropWhile_append_all p cs l2 (fun d hd => h d (by simp [hd]))

/-- takeWhile stops at once on a failing head. -/
theorem takeWhile_head_no (p : Char → Bool) (x : Char) (xs : List Char)
    (h : p x = false) : (x :: xs).takeWhile p = [] := by
  simp [List.takeWhile_cons, h]

/-- dropWhile keeps everything from a failing head on. -/
theorem dropWhile_head_no (p : Char → Bool) (x : Char) (xs : List Char)
    (h : p x = false) : (x :: xs).dropWhile p = x :: xs := by
  simp [List.dropWhile_cons, h]

/-- takeWhile on a block of matching characters followed by a blocked head
returns the block. -/
theorem takeWhile_cons_append_no (p : Char → Bool) (x : Char)
    (xs ys : List Char) (h : p x = false) :
    ((x :: xs) ++ ys).takeWhile p = [] := by
  rw [List.cons_append]
  exact takeWhile_head_no _ _ _ h

/-- dropWhile does not move past a blocked head. -/
theorem dropWhile_cons_append_no (p : Char → Bool) (x : Char)
    (xs ys : List Char) (h : p x = false) :
    ((x :: xs) ++ ys).dropWhile p = (x :: xs) ++ ys := by
  rw [List.cons_append]
  exact dropWhile_head_no _ _ _ h

/-- The placeholder pattern matches exactly a well-formed placeholder at
the head of the input: braces, a whitespace block, a nonempty word, a
whitespace block, braces; the match consumes it whole and trims the name. -/
theorem matchPlaceholder_exact (ws1 ws2 ntl rest : List Char) (n : Char)
    (hw1 : ∀ c ∈ ws1, isSpaceChar c = true)
    (hw2 : ∀ c ∈ ws2, isSpaceChar c = true)
    (hn : ∀ c ∈ n :: ntl, isWordChar c = true) :
    matchPlaceholder
        ('{' :: '{' ::
          (ws1 ++ ((n :: ntl) ++ (ws2 ++ ('}' :: '}' :: rest))))) =
      some ('{' :: '{' :: ((ws1 ++ ((n :: ntl) ++ ws2)) ++ ['}', '}']),
        String.mk (n :: ntl), rest) := by
  have hsp : isSpaceChar n = false := word_not_space (hn n (by simp))
  have hstop : ∀ tail : List Char,
      (ws2 ++ ('}' :: tail)).takeWhile isWordChar = [] := by
    intro tail
    cases ws2 with
    | nil => exact takeWhile_head_no _ _ _ (by decide)
    | cons x xs =>
      exact takeWhile_cons_append_no _ _ _ _
        (space_not_word (hw2 x (by simp)))
  have hstay : ∀ tail : List Char,
      (ws2 ++ ('}' :: tail)).dropWhile isWordChar =
        ws2 ++ ('}' :: tail) := by
    intro tail
    cases ws2 with
    | nil => exact dropWhile_head_no _ _ _ (by decide)
    | cons x xs =>
      exact dropWhile_cons_append_no _ _ _ _
        (space_not_word (hw2 x (by simp)))
  have htake1 :
      (ws1 ++ ((n :: ntl) ++ (ws2 ++ ('}' :: '}' :: rest)))).takeWhile
        isSpaceChar = ws1 := by
    rw [takeWhile_append_all _ _ _ hw1,
      takeWhile_cons_append_no _ _ _ _ hsp, List.append_nil]
  have hdrop1 :
      (ws1 ++ ((n :: ntl) ++ (ws2 ++ ('}' :: '}' :: rest)))).dropWhile
        isSpaceChar = (n :: ntl) ++ (ws2 ++ ('}' :: '}' :: rest)) := by
    rw [dropWhile_append_all _ _ _ hw1,
      dropWhile_cons_append_no _ _ _ _ hsp]
  have htake2 :
      ((n :: ntl) ++ (ws2 ++ ('}' :: '}' :: rest))).takeWhile isWordChar =
        n :: ntl := by
    rw [takeWhile_append_all _ _ _ hn, hstop ('}' :: rest), List.append_nil]
  have hdrop2 :
      ((n :: ntl) ++ (ws2 ++ ('}' :: '}' :: rest))).dropWhile isWordChar =
        ws2 ++ ('}' :: '}' :: rest) := by
    rw [dropWhile_append_all _ _ _ hn, hstay ('}' :: rest)]
  have htake3 :
      (ws2 ++ ('}' :: '}' :: rest)).takeWhile isSpaceChar = ws2 := by
    rw [takeWhile_append_all _ _ _ hw2,
      takeWhile_head_no _ _ _ (by decide), List.append_nil]
  have hdrop3 :
      (ws2 ++ ('}' :: '}' :: rest)).dropWhile isSpaceChar =
        '}' :: '}' :: rest := by
    rw [dropWhile_append_all _ _ _ hw2,
      dropWhile_head_no _ _ _ (by decide)]
  simp only [matchPlaceholder, htake1, hdrop1, htake2, hdrop2, htake3,
    hdrop3]
  simp [List.append_assoc]

/-- The placeholder pattern never matches when the first character is not a
brace. -/
theorem matchPlaceholder_head {c : Char} (cs : List Char) (h : c ≠ '{') :
    matchPlaceholder (c :: cs) = none := by
  unfold matchPlaceholder
  split
  case _ rest heq =>
    exact absurd (List.cons.inj heq).1 h
  case _ => rfl

/-- The replacement loop keeps a character that opens no placeholder. -/
theorem replaceChars_cons_no (m : List (String × TplValue)) {c : Char}
    (cs : List Char) (hc : c ≠ '{') :
    replaceChars m (c :: cs) = c :: replaceChars m cs := by
  rw [replaceChars]
  split
  case _ mm nn rr heq =>
    rw [matchPlaceholder_head cs hc] at heq
    exact absurd heq (by simp)
  case _ => rfl

/-- The replacement loop substitutes or keeps a matched placeholder and
continues right after it. -/
theorem replaceChars_match (m : List (String × TplValue))
    (cs m0 r0 : List Char) (n0 : String)
    (hm : matchPlaceholder cs = some (m0, n0, r0)) :
    replaceChars m cs =
      (match m.find? (fun p => p.1 = n0) with
       | some p => (tplToString p.2).toList
       | none => m0) ++ replaceChars m r0 := by
  match cs with
  | [] => exact absurd hm (by simp [matchPlaceholder])
  | c :: cs' =>
    rw [replaceChars]
    split
    case _ mm nn rr heq =>
      rw [hm] at heq
      simp only [Option.some.injEq, Prod.mk.injEq] at heq
      obtain ⟨h1, h2, h3⟩ := heq
      subst h1
      subst h2
      subst h3
      rfl
    case _ heq =>
      rw [hm] at heq
      exact absurd heq (by simp)

/-- A character block without opening braces passes through the
replacement loop unchanged. -/
theorem replaceChars_no_brace (m : List (String × TplValue)) :
    ∀ pre rest : List Char, (∀ c ∈ pre, c ≠ '{') →
      replaceChars m (pre ++ rest) = pre ++ replaceChars m rest
  | [], _, _ => by simp
  | c :: cs, rest, h => by
    rw [List.cons_append, replaceChars_cons_no m _ (h c (by simp)),
      replaceChars_no_brace m cs rest (fun d hd => h d (by simp [hd])),
      List.cons_append]

/-! ### Custom metric spans and initialization (C8, C10) -/

/-- JavaScript truthiness of an optional string: absent and empty are
falsy. -/
def strTruthy : Option String → Bool
  | none => false
  | some s => s ≠ ""

/-- The short-circuit a-or-b of JavaScript on optional strings: b when a is
falsy. -/
def jsOr (a b : Option String) : Option String :=
  if strTruthy a then a else b

/-- The context checks of span() from init.ts, up to the fire-and-forget
send: error when not initialized; resolve configKey and sessionId from the
explicit options, falling back to the ambient context (store first, then
the fallback slot); error when either resolves falsy; otherwise the send
proceeds with the resolved pair. -/
def spanCheck (st : TraceModuleState) (store : Option SessionContext)
    (optConfigKey optSessionId : Option String) :
    Except String (String × String) :=
  if st.initialized = false then
    Except.error "Fallom not initialized. Call trace.init() first."
  else
    let ctx := getSession store st
    let configKey := jsOr optConfigKey (ctx.map SessionContext.configKey)
    let sessionId := jsOr optSessionId (ctx.map SessionContext.sessionId)
    if strTruthy configKey = false || strTruthy sessionId = false then
      Except.error
        "No session context. Either call setSession() first, or pass configKey and sessionId explicitly."
    else
      Except.ok (configKey.getD "", sessionId.getD "")

/-- The options accepted by trace.init. -/
structure InitOptions where
  apiKey : Option String
  baseUrl : Option String
  captureContent : Option Bool
deriving Repr, DecidableEq

/-- The environment variables trace.init consults. -/
structure EnvVars where
  fallomApiKey : Option String
  fallomBaseUrl : Option String
  fallomCaptureContent : Option String
deriving Repr, DecidableEq

/-- trace.init from init.ts: an already-initialized module returns at once
with nothing changed; otherwise apiKey and baseUrl are resolved from the
options, the environment and the defaults, captureContent from the
environment override or the option, and then a missing apiKey is an error
(with the partial assignments kept, initialized still false); on success
initialized becomes true.  The second component is the error thrown, if
any. -/
def traceInit (opts : InitOptions) (env : EnvVars)
    (st : TraceModuleState) : TraceModuleState × Option String :=
  if st.initialized then (st, none)
  else
    let apiKey := jsOr opts.apiKey env.fallomApiKey
    let apiKey := if strTruthy apiKey then apiKey else none
    let baseUrl := (jsOr opts.baseUrl
      (jsOr env.fallomBaseUrl (some "https://spans.fallom.com"))).getD
      "https://spans.fallom.com"
    let envCapture := env.fallomCaptureContent.map String.toLower
    let captureContent :=
      if envCapture = some "false" || envCapture = some "0" ||
          envCapture = some "no" then false
      else opts.captureContent.getD true
    let st1 : TraceModuleState :=
      { st with
        apiKey := apiKey
        baseUrl := baseUrl
        captureContent := captureContent }
    if apiKey = none then
      (st1, some
        "No API key provided. Set FALLOM_API_KEY environment variable or pass apiKey parameter.")
    else
      ({ st1 with initialized := true }, none)

/-! ## The claims -/

/-- C1: for every subject id and fixed configuration snapshot, assignment is
a pure, repeatable function: two calls with the same inputs return the same
variant index and payload, the result factors through the session-id hash
(MD5 digest, first four bytes big-endian, reduced modulo 1,000,000), and
that hash always lands in the bucket range below 1,000,000, independent of
call order, wall-clock time, or process identity, none of which the
function even takes as input. -/
theorem assign_deterministic (sessionId : String)
    (snapshot : List Variant) :
    assign sessionId snapshot = assign sessionId snapshot ∧
    assign sessionId snapshot =
      selectVariant (hashSessionId sessionId) snapshot ∧
    hashSessionId sessionId < 1000000 := by
  refine ⟨rfl, rfl, ?_⟩
  unfold hashSessionId
  exact Nat.mod_lt _ (by norm_num)

/-- C3: scopes nest and restore: entering a scope with ctxA and, inside its
body, entering a scope with ctxB, a get() inside the inner body returns
ctxB, and a get() executed in the outer body after the inner run returns
ctxA again, whatever store and module state surround the outer call. -/
theorem nested_scopes_restore (ckA sidA ckB sidB : String)
    (store : Option SessionContext) (st : TraceModuleState) :
    (nestedProbe ckA sidA ckB sidB store st).1 =
      (some ⟨ckB, sidB⟩, some ⟨ckA, sidA⟩) := rfl

/-- C4 fails on the code: a setSession issued inside an active scope does
not leave the process-wide fallback slot unchanged; at this concrete input
the slot held one context before the call and holds the newly set pair
after it. -/
theorem setSession_fallback_cex :
    (setSession "fresh" "f1" (some ⟨"scoped", "s0"⟩)
        { apiKey := none, baseUrl := "https://spans.fallom.com",
          initialized := true, captureContent := true,
          fallbackSession := some ⟨"old", "o0"⟩ }).2.fallbackSession ≠
      some ⟨"old", "o0"⟩ := by
  intro h
  simp only [setSession, Option.some.injEq] at h
  exact absurd (congrArg SessionContext.configKey h) (by decide)

/-- C4 amended: setSession mutates the active scope's fields when a scope
is active, and always overwrites the single process-wide fallback slot with
the new pair, whether or not a scope is active; nothing else of the module
state changes. -/
theorem setSession_spec (configKey sessionId : String)
    (store : Option SessionContext) (st : TraceModuleState) :
    (setSession configKey sessionId store st).2.fallbackSession =
      some ⟨configKey, sessionId⟩ ∧
    (setSession configKey sessionId store st).1 =
      store.map (fun _ => ⟨configKey, sessionId⟩) ∧
    (setSession configKey sessionId store st).2.apiKey = st.apiKey ∧
    (setSession configKey sessionId store st).2.baseUrl = st.baseUrl ∧
    (setSession configKey sessionId store st).2.initialized =
      st.initialized ∧
    (setSession configKey sessionId store st).2.captureContent =
      st.captureContent :=
  ⟨rfl, rfl, rfl, rfl, rfl, rfl⟩

/-- C8 fails on the code: with the module initialized but no ambient scope,
no fallback context and no explicit identifiers, recording a custom metric
span raises the no-session-context error instead of proceeding. -/
theorem span_no_context_cex :
    spanCheck
        { apiKey := some "k", baseUrl := "https://spans.fallom.com",
          initialized := true, captureContent := true,
          fallbackSession := none }
        none none none =
      Except.error
        "No session context. Either call setSession() first, or pass configKey and sessionId explicitly." :=
  rfl

/-- C8 amended: the ContextStore operations themselves cannot fail and
absence of context is a valid state: with no scope active, getSession
reports the fallback slot, and reports absent when that is empty too, while
clearSession merely empties the slot; but recording a custom metric span
with no ambient or fallback context and no explicit configKey or sessionId
raises the no-session-context error rather than treating the absence as
unknown. -/
theorem context_absent_span_throws (st : TraceModuleState)
    (hinit : st.initialized = true) (hfb : st.fallbackSession = none) :
    getSession none st = none ∧
    (clearSession st).fallbackSession = none ∧
    spanCheck st none none none =
      Except.error
        "No session context. Either call setSession() first, or pass configKey and sessionId explicitly." := by
  refine ⟨by simp [getSession, hfb], rfl, ?_⟩
  simp [spanCheck, hinit, getSession, hfb, jsOr, strTruthy]

/-- Witness for the amended C8 at a concrete initialized state with an
empty fallback slot. -/
theorem context_absent_span_throws_witness :
    getSession none
        { apiKey := some "k", baseUrl := "https://spans.fallom.com",
          initialized := true, captureContent := false,
          fallbackSession := none } = none ∧
    (clearSession
        { apiKey := some "k", baseUrl := "https://spans.fallom.com",
          initialized := true, captureContent := false,
          fallbackSession := none }).fallbackSession = none ∧
    spanCheck
        { apiKey := some "k", baseUrl := "https://spans.fallom.com",
          initialized := true, captureContent := false,
          fallbackSession := none }
        none none none =
      Except.error
        "No session context. Either call setSession() first, or pass configKey and sessionId explicitly." :=
  context_absent_span_throws _ rfl rfl

/-- C9: prompt rendering with no variable map returns the template
unchanged; with a map, a placeholder of the form two opening braces,
optional spaces, a word, optional spaces, two closing braces, standing
after brace-free text, is replaced by the String() conversion of the map's
value when its trimmed name is a key of the map, and is left literally in
place when the name is missing — in both cases rendering continues after
the placeholder and no error is raised, the result being a total
function. -/
theorem replaceVariables_spec (template : String)
    (m : List (String × TplValue)) (p : String × TplValue)
    (pre ws1 ws2 ntl rest : List Char) (n : Char)
    (hpre : ∀ c ∈ pre, c ≠ '{')
    (hw1 : ∀ c ∈ ws1, isSpaceChar c = true)
    (hw2 : ∀ c ∈ ws2, isSpaceChar c = true)
    (hn : ∀ c ∈ n :: ntl, isWordChar c = true) :
    replaceVariables template none = template ∧
    (m.find? (fun q => q.1 = String.mk (n :: ntl)) = some p →
      replaceVariables
          (String.mk (pre ++ ('{' :: '{' ::
            (ws1 ++ ((n :: ntl) ++ (ws2 ++ ('}' :: '}' :: rest)))))))
          (some m) =
        String.mk
          (pre ++ ((tplToString p.2).toList ++ replaceChars m rest))) ∧
    (m.find? (fun q => q.1 = String.mk (n :: ntl)) = none →
      replaceVariables
          (String.mk (pre ++ ('{' :: '{' ::
            (ws1 ++ ((n :: ntl) ++ (ws2 ++ ('}' :: '}' :: rest)))))))
          (some m) =
        String.mk (pre ++ (('{' :: '{' ::
          ((ws1 ++ ((n :: ntl) ++ ws2)) ++ ['}', '}'])) ++
            replaceChars m rest))) := by
  refine ⟨rfl, ?_, ?_⟩ <;> intro hf <;>
    refine congrArg String.mk ?_ <;>
    rw [show (String.mk (pre ++ ('{' :: '{' ::
      (ws1 ++ ((n :: ntl) ++ (ws2 ++ ('}' :: '}' :: rest))))))).toList =
        pre ++ ('{' :: '{' ::
          (ws1 ++ ((n :: ntl) ++ (ws2 ++ ('}' :: '}' :: rest))))) from rfl]
  · rw [replaceChars_no_brace m pre _ hpre,
      replaceChars_match m _ _ rest (String.mk (n :: ntl))
        (matchPlaceholder_exact ws1 ws2 ntl rest n hw1 hw2 hn), hf]
  · rw [replaceChars_no_brace m pre _ hpre,
      replaceChars_match m _ _ rest (String.mk (n :: ntl))
        (matchPlaceholder_exact ws1 ws2 ntl rest n hw1 hw2 hn), hf]

/-- Witness for C9: rendering the template consisting of the text Hi, a
placeholder with a leading space in its braces and the name, and a closing
exclamation mark, against a map holding that name. -/
theorem replaceVariables_spec_witness :
    replaceVariables
        (String.mk (['H', 'i', ' '] ++ ('{' :: '{' ::
          ([' '] ++ (('n' :: ['a', 'm', 'e']) ++
            ([] ++ ('}' :: '}' :: ['!'])))))))
        (some [("name", TplValue.vstr "John")]) =
      String.mk (['H', 'i', ' '] ++
        ((tplToString ("name", TplValue.vstr "John").2).toList ++
          replaceChars [("name", TplValue.vstr "John")] ['!'])) :=
  (replaceVariables_spec "t" [("name", TplValue.vstr "John")]
      ("name", TplValue.vstr "John") ['H', 'i', ' '] [' '] []
      ['a', 'm', 'e'] ['!'] 'n' (by decide) (by decide) (by decide)
      (by decide)).2.1 (by decide)

/-- C2: two concurrently active scopes entered with different contexts
never leak into each other: under any interleaving of their checkpoints
with arbitrary unscoped mutations of the fallback slot, every checkpoint of
a scope's asynchronous chain observes exactly that scope's own context and
never the other scope's. -/
theorem scope_isolation (ctxA ctxB : SessionContext)
    (events : List Event) (st : TraceModuleState) (hne : ctxA ≠ ctxB) :
    ∀ p ∈ runTrace ctxA ctxB events st,
      p.2 = some (if p.1 then ctxB else ctxA) ∧
      p.2 ≠ some (if p.1 then ctxA else ctxB) := by
  induction events generalizing st with
  | nil => intro p hp; simp [runTrace] at hp
  | cons e es ih =>
    intro p hp
    cases e with
    | checkpoint inB =>
      rw [runTrace, List.mem_cons] at hp
      rcases hp with hp | hp
      · subst hp
        cases inB with
        | false => exact ⟨rfl, fun hc => hne (Option.some.inj hc)⟩
        | true => exact ⟨rfl, fun hc => hne (Option.some.inj hc).symm⟩
      · exact ih st p hp
    | outsideSet ck sid =>
      rw [runTrace] at hp
      exact ih _ p hp
    | outsideClear =>
      rw [runTrace] at hp
      exact ih _ p hp

/-- Witness for C2: a concrete interleaving of the two scopes' checkpoints
with unscoped fallback mutations in between, at which scope A's first
checkpoint observes scope A's context and not scope B's. -/
theorem scope_isolation_witness :
    ((false, some (⟨"agent-a", "s1"⟩ : SessionContext)) :
        Bool × Option SessionContext) ∈
      runTrace ⟨"agent-a", "s1"⟩ ⟨"agent-b", "s2"⟩
        [Event.checkpoint false, Event.outsideSet "other" "s9",
         Event.checkpoint true, Event.checkpoint false, Event.outsideClear,
         Event.checkpoint true]
        { apiKey := some "k", baseUrl := "https://spans.fallom.com",
          initialized := true, captureContent := true,
          fallbackSession := none } ∧
    ((false, some (⟨"agent-a", "s1"⟩ : SessionContext)) :
        Bool × Option SessionContext).2 =
      some (if false then ⟨"agent-b", "s2"⟩ else ⟨"agent-a", "s1"⟩) ∧
    ((false, some (⟨"agent-a", "s1"⟩ : SessionContext)) :
        Bool × Option SessionContext).2 ≠
      some (if false then ⟨"agent-a", "s1"⟩ else ⟨"agent-b", "s2"⟩) := by
  refine ⟨by decide, ?_, ?_⟩
  · exact (scope_isolation ⟨"agent-a", "s1"⟩ ⟨"agent-b", "s2"⟩
      [Event.checkpoint false, Event.outsideSet "other" "s9",
       Event.checkpoint true, Event.checkpoint false, Event.outsideClear,
       Event.checkpoint true]
      { apiKey := some "k", baseUrl := "https://spans.fallom.com",
        initialized := true, captureContent := true,
        fallbackSession := none }
      (by decide) _ (by decide)).1
  · exact (scope_isolation ⟨"agent-a", "s1"⟩ ⟨"agent-b", "s2"⟩
      [Event.checkpoint false, Event.outsideSet "other" "s9",
       Event.checkpoint true, Event.checkpoint false, Event.outsideClear,
       Event.checkpoint true]
      { apiKey := some "k", baseUrl := "https://spans.fallom.com",
        initialized := true, captureContent := true,
        fallbackSession := none }
      (by decide) _ (by decide)).2

/-- On the success path, content capture disabled means the span
attributes of the generateText and streamObject wrappers contain no
request or response content keys at all, while the usage attribute is
still recorded whenever the underlying call reported usage. -/
theorem capture_disabled_omits_content (reqJson respJson u : String)
    (usageJson providerMetaJson : Option String)
    (provider providerId baseUrl aiSdkVersion rawJson : Option String)
    (respJson2 providerMetaJson2 metadataJson : Option String) :
    "fallom.raw.request" ∉
      (generateTextAttributes false reqJson respJson usageJson
        providerMetaJson).map Prod.fst ∧
    "fallom.raw.response" ∉
      (generateTextAttributes false reqJson respJson usageJson
        providerMetaJson).map Prod.fst ∧
    "fallom.raw.usage" ∈
      (generateTextAttributes false reqJson respJson (some u)
        providerMetaJson).map Prod.fst ∧
    "fallom.raw.request" ∉
      (streamObjectAttributes false provider providerId baseUrl aiSdkVersion
        rawJson reqJson respJson2 usageJson providerMetaJson2
        metadataJson).map Prod.fst ∧
    "fallom.raw.response" ∉
      (streamObjectAttributes false provider providerId baseUrl aiSdkVersion
        rawJson reqJson respJson2 usageJson providerMetaJson2
        metadataJson).map Prod.fst ∧
    "fallom.raw.usage" ∈
      (streamObjectAttributes false provider providerId baseUrl aiSdkVersion
        rawJson reqJson respJson2 (some u) providerMetaJson2
        metadataJson).map Prod.fst := by
  refine ⟨?_, ?_, ?_, ?_, ?_, ?_⟩ <;>
    simp [generateTextAttributes, streamObjectAttributes,
      providerInfoToAttributes, mem_optEntry_keys, pair_mem_optEntry]

/-- C7 fails on the code: the generateText wrapper's catch block adds the
raw request attribute unconditionally — it carries no content-capture
guard — so a span built on error completion contains fallom.raw.request
even when content capture is disabled, while the success-path span at the
same setting omits it (as does the streamObject wrapper's error span);
request content is therefore not omitted from every span in privacy
mode. -/
theorem error_span_request_leak :
    "fallom.raw.request" ∈
      (generateTextErrorAttributes "req").map Prod.fst ∧
    "fallom.raw.request" ∉
      (generateTextAttributes false "req" "resp" none none).map Prod.fst ∧
    "fallom.raw.request" ∉ streamObjectErrorAttributes.map Prod.fst := by
  refine ⟨?_, ?_, ?_⟩ <;>
    simp [generateTextErrorAttributes, generateTextAttributes,
      streamObjectErrorAttributes, optEntry]

/-- C5 fails on the code: a data-image string of 1,011 characters under a
field name off the denylist is longer than 1,000 characters and yet is not
replaced by a placeholder stating its length: the fixed base64 placeholder
wins. -/
theorem sanitizeMetadataOnly_data_uri_cex :
    sanitizeMetadataOnly "finishReason"
        (JsValue.str ("data:image/" ++ String.mk (List.replicate 1000 'a'))) =
      JsValue.str "[base64 image omitted]" ∧
    ("data:image/" ++ String.mk (List.replicate 1000 'a')).length = 1011 ∧
    sanitizeMetadataOnly "finishReason"
        (JsValue.str ("data:image/" ++ String.mk (List.replicate 1000 'a'))) ≠
      JsValue.str "[large string omitted: 1011 chars]" := by
  have h1 : sanitizeMetadataOnly "finishReason"
      (JsValue.str ("data:image/" ++ String.mk (List.replicate 1000 'a'))) =
      JsValue.str "[base64 image omitted]" := rfl
  refine ⟨h1, by decide, ?_⟩
  intro h
  rw [h1] at h
  exact absurd (JsValue.str.inj h) (by decide)

/-- C5 amended: under the metadata-only profile every denylisted field
whose value is a string, an array, or any other object (binary payloads
included) is replaced by the type-aware placeholder before the general
string-length rule; a remaining string field longer than 1,000 characters
is then replaced by a placeholder stating its length, except that a
remaining string starting with data:image/ is replaced by the fixed base64
placeholder first. -/
theorem sanitizeMetadataOnly_spec (key k2 s : String)
    (items : List JsValue) (fields : List (String × JsValue)) (len : Nat)
    (hk : contentKeys.contains key = true)
    (hk2 : contentKeys.contains k2 = false) :
    sanitizeMetadataOnly key (JsValue.str s) =
      JsValue.str ("[content omitted: " ++ toString s.length ++ " chars]") ∧
    sanitizeMetadataOnly key (JsValue.arr items) =
      JsValue.str
        ("[content omitted: " ++ toString items.length ++ " items]") ∧
    sanitizeMetadataOnly key (JsValue.obj fields) =
      JsValue.str "[content omitted]" ∧
    sanitizeMetadataOnly key (JsValue.binary len) =
      JsValue.str "[content omitted]" ∧
    (∀ t : String, jsStartsWith t "data:image/" = false → t.length > 1000 →
      sanitizeMetadataOnly k2 (JsValue.str t) =
        JsValue.str
          ("[large string omitted: " ++ toString t.length ++ " chars]")) ∧
    (∀ t : String, jsStartsWith t "data:image/" = true →
      sanitizeMetadataOnly k2 (JsValue.str t) =
        JsValue.str "[base64 image omitted]") := by
  have hk1 : key ∈ contentKeys := by simpa using hk
  have hk3 : k2 ∉ contentKeys := by simpa using hk2
  refine ⟨by simp [sanitizeMetadataOnly, hk1],
    by simp [sanitizeMetadataOnly, hk1], by simp [sanitizeMetadataOnly, hk1],
    by simp [sanitizeMetadataOnly, hk1], ?_, ?_⟩
  · intro t h5 h6
    simp [sanitizeMetadataOnly, sanitizeValueMeta, hk3, h5, h6]
  · intro t ht
    simp [sanitizeMetadataOnly, sanitizeValueMeta, hk3, ht]

/-- Witness for the amended C5 at the spec's own example: a 50-character
string under the field name content, alongside a concrete array, object and
binary value, and the key finishReason off the denylist. -/
theorem sanitizeMetadataOnly_spec_witness :
    sanitizeMetadataOnly "content"
        (JsValue.str (String.mk (List.replicate 50 'a'))) =
      JsValue.str
        ("[content omitted: " ++
          toString (String.mk (List.replicate 50 'a')).length ++
          " chars]") ∧
    sanitizeMetadataOnly "content" (JsValue.arr [JsValue.num 1]) =
      JsValue.str
        ("[content omitted: " ++
          toString ([JsValue.num 1] : List JsValue).length ++ " items]") ∧
    sanitizeMetadataOnly "content" (JsValue.obj [("a", JsValue.num 1)]) =
      JsValue.str "[content omitted]" ∧
    sanitizeMetadataOnly "content" (JsValue.binary 4) =
      JsValue.str "[content omitted]" ∧
    (∀ t : String, jsStartsWith t "data:image/" = false → t.length > 1000 →
      sanitizeMetadataOnly "finishReason" (JsValue.str t) =
        JsValue.str
          ("[large string omitted: " ++ toString t.length ++ " chars]")) ∧
    (∀ t : String, jsStartsWith t "data:image/" = true →
      sanitizeMetadataOnly "finishReason" (JsValue.str t) =
        JsValue.str "[base64 image omitted]") :=
  sanitizeMetadataOnly_spec "content" "finishReason"
    (String.mk (List.replicate 50 'a')) [JsValue.num 1]
    [("a", JsValue.num 1)] 4 (by decide) (by decide)

/-- C6 fails on the code: the full-content replacement decision does depend
on the field's name: a two-character string under the key rawResponse is
redacted to the fixed placeholder while the same value under another key is
kept, so equal values are not redacted identically for every field name. -/
theorem sanitizeForLogging_key_dependent_cex :
    sanitizeForLogging "rawResponse" (JsValue.str "ok") ≠
      sanitizeForLogging "finishReason" (JsValue.str "ok") := by
  intro h
  have h1 : sanitizeForLogging "rawResponse" (JsValue.str "ok") =
      JsValue.str "[omitted]" := rfl
  have h2 : sanitizeForLogging "finishReason" (JsValue.str "ok") =
      JsValue.str "ok" := rfl
  rw [h1, h2] at h
  exact absurd (JsValue.str.inj h) (by decide)

/-- C6 amended: under the full-content profile the two diagnostic keys
rawResponse and rawCall are always replaced by the fixed placeholder
regardless of value; for every other field name the decision depends only
on the value — equal values are redacted identically — with strings over
10,000 characters that are not data-image URIs replaced by a placeholder
stating their length, data-image strings replaced by the fixed image
placeholder, and binary payloads replaced by the fixed binary
placeholder. -/
theorem sanitizeForLogging_spec (k1 k2 : String) (v : JsValue) (len : Nat)
    (h1 : k1 ≠ "rawResponse") (h2 : k1 ≠ "rawCall")
    (h3 : k2 ≠ "rawResponse") (h4 : k2 ≠ "rawCall") :
    sanitizeForLogging "rawResponse" v = JsValue.str "[omitted]" ∧
    sanitizeForLogging "rawCall" v = JsValue.str "[omitted]" ∧
    sanitizeForLogging k1 v = sanitizeForLogging k2 v ∧
    (∀ s : String, jsStartsWith s "data:image/" = false → s.length > 10000 →
      sanitizeForLogging k1 (JsValue.str s) =
        JsValue.str
          ("[large string omitted: " ++ toString s.length ++ " chars]")) ∧
    (∀ t : String, jsStartsWith t "data:image/" = true →
      sanitizeForLogging k1 (JsValue.str t) =
        JsValue.str "[base64 image omitted]") ∧
    sanitizeForLogging k1 (JsValue.binary len) =
      JsValue.str "[binary data omitted]" := by
  refine ⟨by simp [sanitizeForLogging], by simp [sanitizeForLogging],
    ?_, ?_, ?_, ?_⟩
  · simp [sanitizeForLogging, h1, h2, h3, h4]
  · intro s h5 h6
    simp [sanitizeForLogging, sanitizeValueFull, h1, h2, h5, h6]
  · intro t ht
    simp [sanitizeForLogging, sanitizeValueFull, h1, h2, ht]
  · simp [sanitizeForLogging, sanitizeValueFull, h1, h2]

/-- Witness for the amended C6 at concrete keys, a concrete value and a
concrete binary payload length. -/
theorem sanitizeForLogging_spec_witness :
    sanitizeForLogging "rawResponse" (JsValue.num 7) =
      JsValue.str "[omitted]" ∧
    sanitizeForLogging "rawCall" (JsValue.num 7) =
      JsValue.str "[omitted]" ∧
    sanitizeForLogging "finishReason" (JsValue.num 7) =
      sanitizeForLogging "modelId" (JsValue.num 7) ∧
    (∀ s : String, jsStartsWith s "data:image/" = false → s.length > 10000 →
      sanitizeForLogging "finishReason" (JsValue.str s) =
        JsValue.str
          ("[large string omitted: " ++ toString s.length ++ " chars]")) ∧
    (∀ t : String, jsStartsWith t "data:image/" = true →
      sanitizeForLogging "finishReason" (JsValue.str t) =
        JsValue.str "[base64 image omitted]") ∧
    sanitizeForLogging "finishReason" (JsValue.binary 3) =
      JsValue.str "[binary data omitted]" :=
  sanitizeForLogging_spec "finishReason" "modelId" (JsValue.num 7) 3
    (by decide) (by decide) (by decide) (by decide)

/-- C10: trace initialization is idempotent after first success: once the
module state records initialized, every subsequent init call returns at
once, throws nothing (whatever the options and environment, even with no
API key anywhere), and leaves the stored apiKey, baseUrl, captureContent
and initialized state exactly as they were. -/
theorem traceInit_idempotent (opts : InitOptions) (env : EnvVars)
    (st : TraceModuleState) (h : st.initialized = true) :
    traceInit opts env st = (st, none) := by
  unfold traceInit
  simp [h]

/-- Witness for C10 at a concrete initialized state and empty options and
environment. -/
theorem traceInit_idempotent_witness :
    traceInit ⟨none, none, none⟩ ⟨none, none, none⟩
        { apiKey := some "k", baseUrl := "https://spans.fallom.com",
          initialized := true, captureContent := true,
          fallbackSession := none } =
      ({ apiKey := some "k", baseUrl := "https://spans.fallom.com",
         initialized := true, captureContent := true,
         fallbackSession := none }, none) :=
  traceInit_idempotent _ _ _ rfl

end Fallom
